import Mathlib

/-!
A shallow embedding of the `WsIo` adapter of `ws_stream_wasm`
(`src/ws_io.rs`), which wraps a browser WebSocket and exposes it as a
futures `Stream` of inbound messages and a `Sink` for outbound messages.

The adapter's observable state is: the live socket lifecycle state
(`WebSocket::ready_state`), the inbound FIFO queue (`VecDeque`) filled by
the `on_mesg` callback, and a single-slot waker cell. Each Rust method is
embedded as a pure function from that state (plus the method's inputs) to
its result, the successor state, and the side effects it performs on the
socket (raw sends, close requests, task spawns).
-/

namespace WsStreamWasm

/-- Lifecycle state of the underlying WebSocket (`WsState` in the crate),
mirroring the four `readyState` values of the web API. -/
inductive WsState
  | Connecting
  | Open
  | Closing
  | Closed
deriving DecidableEq, Repr

/-- A WebSocket message (`WsMessage` in the crate): a text or a binary
payload. Binary payloads are byte sequences, modelled as lists of `Nat`. -/
inductive WsMessage
  | Text (s : String)
  | Binary (d : List Nat)
deriving DecidableEq, Repr

/-- The error kinds the sink can surface (`WsErrKind`). -/
inductive WsErrKind
  | ConnectionNotReady
  | ConnectionClosed
deriving DecidableEq, Repr

/-- Task wakers are opaque handles; we model them as identifiers so that
"the same waker" is meaningful. -/
abbrev Waker := Nat

/-- `std::task::Poll`. -/
inductive Poll (α : Type)
  | Ready (a : α)
  | Pending
deriving DecidableEq, Repr

/-- `VecDeque::push_back` on the model queue (front of the deque is the head
of the list). -/
def push_back {α : Type} (q : List α) (m : α) : List α :=
  q ++ [m]

/-- `VecDeque::pop_front` on the model queue: returns the popped element (if
any) and the remaining queue. Total: on an empty queue it returns `none`. -/
def pop_front {α : Type} (q : List α) : Option α × List α :=
  match q with
  | [] => (none, [])
  | m :: rest => (some m, rest)

/-- The observable state of a `WsIo` adapter: `readyState` is the live
lifecycle state of the wrapped socket (read on demand by
`WsIo::ready_state`; it is owned by the host and can change between
operations), `queue` is the inbound FIFO (`Rc<RefCell<VecDeque<_>>>`, front
at the head), and `waker` is the single-slot waker cell
(`Rc<RefCell<Option<Waker>>>`). -/
structure WsIo where
  readyState : WsState
  queue : List WsMessage
  waker : Option Waker
deriving DecidableEq, Repr

/-- `WsIo::new` creates the adapter with an empty queue and an empty waker
cell; the socket it wraps is in whatever state the host has it in. -/
def WsIo.new (st : WsState) : WsIo :=
  { readyState := st, queue := [], waker := none }

/-- The `on_mesg` closure installed by `WsIo::new`: push the decoded message
at the back of the queue, then `take()` the waker cell and wake its content
if there was one. Returns the successor state together with the waker that
was woken (if any). -/
def WsIo.on_mesg (s : WsIo) (m : WsMessage) : WsIo × Option Waker :=
  let s1 : WsIo := { s with queue := push_back s.queue m }
  match s1.waker with
  | some w => ({ s1 with waker := none }, some w)
  | none => (s1, none)

/-- `WsIo::poll_next` (the `Stream` impl): if the queue is empty, store the
caller's waker into the cell and dispatch on the live socket state
(`Open`/`Connecting` give `Pending`, anything else gives `Ready(None)`);
otherwise `pop_front` the queue and return the popped element. Returns the
poll result and the successor state. -/
def WsIo.poll_next (s : WsIo) (w : Waker) : Poll (Option WsMessage) × WsIo :=
  if s.queue.isEmpty then
    let s1 : WsIo := { s with waker := some w }
    match s.readyState with
    | WsState.Open => (Poll.Pending, s1)
    | WsState.Connecting => (Poll.Pending, s1)
    | _ => (Poll.Ready none, s1)
  else
    let p := pop_front s.queue
    (Poll.Ready p.1, { s with queue := p.2 })

/-- `WsIo::poll_ready` (the `Sink` impl): pure dispatch on the live socket
state. -/
def WsIo.poll_ready (s : WsIo) : Poll (Except WsErrKind Unit) :=
  match s.readyState with
  | WsState.Connecting => Poll.Pending
  | WsState.Open => Poll.Ready (Except.ok ())
  | _ => Poll.Ready (Except.error WsErrKind.ConnectionClosed)

/-- A raw send handed to the socket: `send_with_str` for text,
`send_with_u8_array` for binary. -/
inductive RawSend
  | text (s : String)
  | binary (d : List Nat)
deriving DecidableEq, Repr

/-- `WsIo::start_send`: dispatch on the live socket state; when `Open`, hand
the item to the matching raw send primitive of the socket and return `Ok`.
The second component records the raw send performed, if any. -/
def WsIo.start_send (s : WsIo) (item : WsMessage) :
    Except WsErrKind Unit × Option RawSend :=
  match s.readyState with
  | WsState.Connecting => (Except.error WsErrKind.ConnectionNotReady, none)
  | WsState.Open =>
    match item with
    | WsMessage.Binary d => (Except.ok (), some (RawSend.binary d))
    | WsMessage.Text t => (Except.ok (), some (RawSend.text t))
  | _ => (Except.error WsErrKind.ConnectionClosed, none)

/-- `WsIo::poll_flush`: immediately successful, nothing to flush. -/
def WsIo.poll_flush (_s : WsIo) : Poll (Except WsErrKind Unit) :=
  Poll.Ready (Except.ok ())

instance {ε α : Type} [DecidableEq ε] [DecidableEq α] : DecidableEq (Except ε α)
  | Except.ok x, Except.ok y =>
    if h : x = y then isTrue (by rw [h]) else isFalse (by intro hc; cases hc; exact h rfl)
  | Except.ok _, Except.error _ => isFalse (by intro hc; cases hc)
  | Except.error _, Except.ok _ => isFalse (by intro hc; cases hc)
  | Except.error e, Except.error f =>
    if h : e = f then isTrue (by rw [h]) else isFalse (by intro hc; cases hc; exact h rfl)

/-- What one call to `WsIo::poll_close` does: its poll result, whether it
issued `ws.close()`, and the waker bound to the `wake_on_close` task it
spawned (if it spawned one). -/
structure CloseOutcome where
  result : Poll (Except WsErrKind Unit)
  closeIssued : Bool
  spawned : Option Waker
deriving DecidableEq, Repr

/-- `WsIo::poll_close`: read the live socket state once; issue `ws.close()`
when it is `Connecting` or `Open`; then dispatch on the same read state:
`Closed` resolves immediately, anything else spawns `wake_on_close` bound
to the caller's waker and stays pending. -/
def WsIo.poll_close (s : WsIo) (w : Waker) : CloseOutcome :=
  let st := s.readyState
  let issued : Bool := decide (st = WsState.Connecting) || decide (st = WsState.Open)
  match st with
  | WsState.Closed => { result := Poll.Ready (Except.ok ()), closeIssued := issued, spawned := none }
  | _ => { result := Poll.Pending, closeIssued := issued, spawned := some w }

/-- Outcome of running `Drop::drop`: either it returns normally or it
panics (the `expect` fires). -/
inductive DropOutcome
  | ok
  | panicked
deriving DecidableEq, Repr

/-- `impl Drop for WsIo`: call `self.ws.close()` exactly once and `expect`
its result, so a failing raw close panics. `closeResult` is what the
socket's raw close returns; the first component counts the close
invocations the drop performs. -/
def WsIo.drop (closeResult : Except String Unit) : Nat × DropOutcome :=
  match closeResult with
  | Except.ok _ => (1, DropOutcome.ok)
  | Except.error _ => (1, DropOutcome.panicked)

/-- Modelled from the spec: the `TryFrom<u16>` conversion into `WsState`
used by `WsIo::ready_state` lives in a crate file that is not under `src/`
(only its caller `ws_io.rs` is). The spec fixes exactly four lifecycle
states — Connecting, Open, Closing, Closed — matching the web API
`readyState` codes 0, 1, 2, 3; every other code is a conversion error. -/
def WsState.try_from (raw : Nat) : Option WsState :=
  match raw with
  | 0 => some WsState.Connecting
  | 1 => some WsState.Open
  | 2 => some WsState.Closing
  | 3 => some WsState.Closed
  | _ => none

/-- `WsIo::ready_state`: convert the socket's raw `readyState` code and
`unwrap_throw` the result — a failing conversion panics, so the result is
`none` exactly when the code would panic. -/
def WsIo.ready_state (raw : Nat) : Option WsState :=
  WsState.try_from raw

/-- The events that can hit the adapter between (and including) stream
polls: the host moving the socket to a new lifecycle state, the `on_mesg`
callback firing with a decoded message, and the consumer polling the
stream with some waker. -/
inductive Event
  | setState (st : WsState)
  | mesg (m : WsMessage)
  | poll (w : Waker)
deriving DecidableEq, Repr

/-- The terminal socket states, `Closing` and `Closed`. -/
def WsState.isTerminal : WsState → Bool
  | WsState.Closing => true
  | WsState.Closed => true
  | _ => false

/-- The host contract an execution obeys (spec sections 4.2 and 4.5): the
socket never transitions from `Closing`/`Closed` back to
`Connecting`/`Open`, and once the socket is `Closing`/`Closed` "no more
data will ever arrive", so the message callback no longer fires. Polling
is unrestricted. -/
def ValidExec (s : WsIo) : List Event → Bool
  | [] => true
  | Event.setState st :: es =>
      (!s.readyState.isTerminal || st.isTerminal) &&
        ValidExec { s with readyState := st } es
  | Event.mesg m :: es =>
      !s.readyState.isTerminal && ValidExec (s.on_mesg m).1 es
  | Event.poll w :: es => ValidExec (s.poll_next w).2 es

/-- The poll results produced along an execution, in order. -/
def results (s : WsIo) : List Event → List (Poll (Option WsMessage))
  | [] => []
  | Event.setState st :: es => results { s with readyState := st } es
  | Event.mesg m :: es => results (s.on_mesg m).1 es
  | Event.poll w :: es => (s.poll_next w).1 :: results (s.poll_next w).2 es

/-- Fire the message callback once per message of the list, in order. -/
def deliverAll (s : WsIo) : List WsMessage → WsIo
  | [] => s
  | m :: ms => deliverAll (s.on_mesg m).1 ms

/-- Poll the stream `n` times in a row, collecting the results in order. -/
def drain (s : WsIo) (w : Waker) : Nat → List (Poll (Option WsMessage)) × WsIo
  | 0 => ([], s)
  | Nat.succ n =>
    let p := s.poll_next w
    let rest := drain p.2 w n
    (p.1 :: rest.1, rest.2)

/-- On a non-empty queue, `poll_next` pops the front element and returns
it; only the queue changes. -/
theorem poll_next_cons (s : WsIo) (w : Waker) (m : WsMessage)
    (ms : List WsMessage) (h : s.queue = m :: ms) :
    s.poll_next w = (Poll.Ready (some m), { s with queue := ms }) := by
  simp [WsIo.poll_next, h, pop_front]

/-- The message callback appends exactly one element at the back of the
queue and leaves the live state alone. -/
theorem on_mesg_queue (s : WsIo) (m : WsMessage) :
    ((s.on_mesg m).1).queue = s.queue ++ [m] ∧
    ((s.on_mesg m).1).readyState = s.readyState := by
  cases hw : s.waker <;> simp [WsIo.on_mesg, hw, push_back]

/-- Delivering a batch of messages appends them all, in order. -/
theorem deliverAll_queue : ∀ (ms : List WsMessage) (s : WsIo),
    (deliverAll s ms).queue = s.queue ++ ms ∧
    (deliverAll s ms).readyState = s.readyState
  | [], s => by simp [deliverAll]
  | m :: ms, s => by
    have h1 := on_mesg_queue s m
    have h2 := deliverAll_queue ms (s.on_mesg m).1
    refine ⟨?_, ?_⟩
    · rw [show deliverAll s (m :: ms) = deliverAll (s.on_mesg m).1 ms from rfl,
        h2.1, h1.1]
      simp
    · rw [show deliverAll s (m :: ms) = deliverAll (s.on_mesg m).1 ms from rfl,
        h2.2, h1.2]

/-- Draining as many polls as the queue holds yields exactly the queue's
elements, in order, each as `Ready (some _)`. -/
theorem drain_yields : ∀ (ms : List WsMessage) (s : WsIo) (w : Waker),
    s.queue = ms →
    (drain s w ms.length).1 = ms.map (fun m => Poll.Ready (some m))
  | [], _, _, _ => by simp [drain]
  | m :: ms, s, w, h => by
    have hpop := poll_next_cons s w m ms h
    have hd : (drain s w (m :: ms).length).1
        = Poll.Ready (some m) :: (drain { s with queue := ms } w ms.length).1 := by
      simp [drain, hpop]
    rw [hd, List.map_cons]
    exact congrArg (List.cons (Poll.Ready (some m)))
      (drain_yields ms { s with queue := ms } w rfl)

/-- C1: `poll_next` pops and returns the front of a non-empty queue as
`Ready (some _)`; on an empty queue it stores the caller's waker into the
cell (replacing any previous content, everything else unchanged) and then
dispatches on the live state: `Connecting`/`Open` give `Pending`,
`Closing`/`Closed` give `Ready none`. -/
theorem poll_next_spec (s : WsIo) (w : Waker) :
    (∀ m ms, s.queue = m :: ms →
      s.poll_next w = (Poll.Ready (some m), { s with queue := ms })) ∧
    (s.queue = [] →
      (s.poll_next w).2 = { s with waker := some w } ∧
      ((s.readyState = WsState.Connecting ∨ s.readyState = WsState.Open) →
        (s.poll_next w).1 = Poll.Pending) ∧
      ((s.readyState = WsState.Closing ∨ s.readyState = WsState.Closed) →
        (s.poll_next w).1 = Poll.Ready none)) := by
  refine ⟨?_, ?_⟩
  · intro m ms h
    simp [WsIo.poll_next, h, pop_front]
  · intro h
    have h2 : (s.poll_next w).2 = { s with waker := some w } := by
      cases hst : s.readyState <;> simp [WsIo.poll_next, h, hst]
    refine ⟨h2, ?_, ?_⟩
    · rintro (hst | hst) <;> simp [WsIo.poll_next, h, hst]
    · rintro (hst | hst) <;> simp [WsIo.poll_next, h, hst]

/-- Witness for C1: a concrete non-empty-queue pop and a concrete
empty-queue poll on a closed socket. -/
theorem poll_next_spec_witness :
    WsIo.poll_next ⟨WsState.Open, [WsMessage.Text "a"], none⟩ 0
      = (Poll.Ready (some (WsMessage.Text "a")), ⟨WsState.Open, [], none⟩) ∧
    (WsIo.poll_next ⟨WsState.Closed, [], none⟩ 0).1 = Poll.Ready none :=
  ⟨(poll_next_spec ⟨WsState.Open, [WsMessage.Text "a"], none⟩ 0).1
      (WsMessage.Text "a") [] rfl,
    ((poll_next_spec ⟨WsState.Closed, [], none⟩ 0).2 rfl).2.2 (Or.inr rfl)⟩

/-- C4: `poll_ready` is `Ready (ok)` exactly when the live state is `Open`;
it is `Pending` when `Connecting` and `Ready (error ConnectionClosed)` when
`Closing` or `Closed`. -/
theorem poll_ready_spec (s : WsIo) :
    (s.poll_ready = Poll.Ready (Except.ok ()) ↔ s.readyState = WsState.Open) ∧
    (s.readyState = WsState.Connecting → s.poll_ready = Poll.Pending) ∧
    ((s.readyState = WsState.Closing ∨ s.readyState = WsState.Closed) →
      s.poll_ready = Poll.Ready (Except.error WsErrKind.ConnectionClosed)) := by
  refine ⟨?_, ?_, ?_⟩
  · cases hst : s.readyState <;> simp [WsIo.poll_ready, hst]
  · intro hst
    simp [WsIo.poll_ready, hst]
  · rintro (hst | hst) <;> simp [WsIo.poll_ready, hst]

/-- Witness for C4: the three readiness answers at concrete states. -/
theorem poll_ready_spec_witness :
    WsIo.poll_ready ⟨WsState.Open, [], none⟩ = Poll.Ready (Except.ok ()) ∧
    WsIo.poll_ready ⟨WsState.Connecting, [], none⟩ = Poll.Pending ∧
    WsIo.poll_ready ⟨WsState.Closing, [], none⟩
      = Poll.Ready (Except.error WsErrKind.ConnectionClosed) :=
  ⟨(poll_ready_spec ⟨WsState.Open, [], none⟩).1.mpr rfl,
    (poll_ready_spec ⟨WsState.Connecting, [], none⟩).2.1 rfl,
    (poll_ready_spec ⟨WsState.Closing, [], none⟩).2.2 (Or.inl rfl)⟩

/-- C5: `start_send` fails with `ConnectionNotReady` while `Connecting`,
fails with `ConnectionClosed` while `Closing`/`Closed`, and while `Open`
hands the item to the raw send primitive matching its tag and returns
`Ok`. -/
theorem start_send_spec (s : WsIo) (item : WsMessage) :
    (s.readyState = WsState.Connecting →
      s.start_send item = (Except.error WsErrKind.ConnectionNotReady, none)) ∧
    ((s.readyState = WsState.Closing ∨ s.readyState = WsState.Closed) →
      s.start_send item = (Except.error WsErrKind.ConnectionClosed, none)) ∧
    (s.readyState = WsState.Open →
      (∀ t, item = WsMessage.Text t →
        s.start_send item = (Except.ok (), some (RawSend.text t))) ∧
      (∀ d, item = WsMessage.Binary d →
        s.start_send item = (Except.ok (), some (RawSend.binary d)))) := by
  refine ⟨?_, ?_, ?_⟩
  · intro hst
    simp [WsIo.start_send, hst]
  · rintro (hst | hst) <;> simp [WsIo.start_send, hst]
  · intro hst
    refine ⟨?_, ?_⟩
    · rintro t rfl
      simp [WsIo.start_send, hst]
    · rintro d rfl
      simp [WsIo.start_send, hst]

/-- Witness for C5: the spec's scenario — sending `Text "hi"` succeeds while
`Open`, fails with `ConnectionClosed` while `Closing`, fails with
`ConnectionNotReady` while `Connecting`. -/
theorem start_send_spec_witness :
    WsIo.start_send ⟨WsState.Open, [], none⟩ (WsMessage.Text "hi")
      = (Except.ok (), some (RawSend.text "hi")) ∧
    WsIo.start_send ⟨WsState.Closing, [], none⟩ (WsMessage.Text "hi")
      = (Except.error WsErrKind.ConnectionClosed, none) ∧
    WsIo.start_send ⟨WsState.Connecting, [], none⟩ (WsMessage.Text "hi")
      = (Except.error WsErrKind.ConnectionNotReady, none) :=
  ⟨((start_send_spec ⟨WsState.Open, [], none⟩ (WsMessage.Text "hi")).2.2 rfl).1 "hi" rfl,
    (start_send_spec ⟨WsState.Closing, [], none⟩ (WsMessage.Text "hi")).2.1 (Or.inl rfl),
    (start_send_spec ⟨WsState.Connecting, [], none⟩ (WsMessage.Text "hi")).1 rfl⟩

/-- C8: the waker cell (an `Option`, so it holds at most one waker at any
time) is overwritten — not appended to — when `poll_next` parks on an empty
queue and is left untouched otherwise; the message callback takes its
content exactly once, waking exactly the waker that was parked and leaving
the cell empty. -/
theorem waker_cell_spec (s : WsIo) (w : Waker) (m : WsMessage) :
    ((s.poll_next w).2.waker = if s.queue.isEmpty then some w else s.waker) ∧
    ((s.on_mesg m).1.waker = none) ∧
    ((s.on_mesg m).2 = s.waker) := by
  refine ⟨?_, ?_, ?_⟩
  · cases hq : s.queue <;> cases hst : s.readyState <;>
      simp [WsIo.poll_next, hq, hst, pop_front]
  · cases hw : s.waker <;> simp [WsIo.on_mesg, hw]
  · cases hw : s.waker <;> simp [WsIo.on_mesg, hw]

/-- C10: when the queue is non-empty, `poll_next` removes exactly the front
element and changes nothing else — the waker cell and the socket are
untouched; the result does not depend on the live state (it is never
consulted) nor on the caller's waker (it is never parked). -/
theorem poll_next_frame (s : WsIo) (w w' : Waker) (m : WsMessage)
    (ms : List WsMessage) (h : s.queue = m :: ms) :
    s.poll_next w = (Poll.Ready (some m), { s with queue := ms }) ∧
    (s.poll_next w).2.waker = s.waker ∧
    (s.poll_next w).2.readyState = s.readyState ∧
    (∀ st, (WsIo.poll_next { s with readyState := st } w).1 = (s.poll_next w).1) ∧
    s.poll_next w = s.poll_next w' := by
  refine ⟨?_, ?_, ?_, ?_, ?_⟩ <;>
    simp [WsIo.poll_next, h, pop_front]

/-- Witness for C10: a concrete pop leaving the parked waker and the state
alone, insensitive to the live state and to the polling waker. -/
theorem poll_next_frame_witness :
    WsIo.poll_next ⟨WsState.Closed, [WsMessage.Binary [7]], some 5⟩ 0
      = (Poll.Ready (some (WsMessage.Binary [7])), ⟨WsState.Closed, [], some 5⟩) ∧
    (WsIo.poll_next ⟨WsState.Closed, [WsMessage.Binary [7]], some 5⟩ 0).2.waker = some 5 :=
  ⟨(poll_next_frame ⟨WsState.Closed, [WsMessage.Binary [7]], some 5⟩ 0 1
      (WsMessage.Binary [7]) [] rfl).1,
    (poll_next_frame ⟨WsState.Closed, [WsMessage.Binary [7]], some 5⟩ 0 1
      (WsMessage.Binary [7]) [] rfl).2.1⟩

/-- C3: deliver N messages to a fresh adapter through the callback, then
poll N times: the polls return exactly those N messages, in the order the
callback received them, each exactly once as `Ready (some _)` — so none is
dropped or duplicated and no `Pending`/`Ready none` shows up among the
first N results. -/
theorem fifo_delivery (st : WsState) (ms : List WsMessage) (w : Waker) :
    (drain (deliverAll (WsIo.new st) ms) w ms.length).1
      = ms.map (fun m => Poll.Ready (some m)) := by
  apply drain_yields
  have h := deliverAll_queue ms (WsIo.new st)
  simpa [WsIo.new] using h.1

/-- `isTerminal` holds exactly on `Closing` and `Closed`. -/
theorem isTerminal_iff (st : WsState) :
    st.isTerminal = true ↔ (st = WsState.Closing ∨ st = WsState.Closed) := by
  cases st <;> simp [WsState.isTerminal]

/-- On an empty queue and a terminal live state, `poll_next` answers
`Ready none` and only parks the waker. -/
theorem poll_next_dead (s : WsIo) (w : Waker) (hq : s.queue = [])
    (hst : s.readyState.isTerminal = true) :
    s.poll_next w = (Poll.Ready none, { s with waker := some w }) := by
  rcases (isTerminal_iff s.readyState).mp hst with h | h <;>
    simp [WsIo.poll_next, hq, h]

/-- A poll that answers `Ready none` found an empty queue and a terminal
live state, and leaves both in place. -/
theorem poll_next_ready_none (s : WsIo) (w : Waker)
    (h : (s.poll_next w).1 = Poll.Ready none) :
    s.queue = [] ∧ s.readyState.isTerminal = true ∧
    (s.poll_next w).2.queue = [] ∧
    (s.poll_next w).2.readyState = s.readyState := by
  cases hq : s.queue with
  | cons m ms =>
    rw [poll_next_cons s w m ms hq] at h
    simp at h
  | nil =>
    cases hst : s.readyState <;>
      simp [WsIo.poll_next, hq, hst, WsState.isTerminal] at h ⊢

/-- A dead adapter (empty queue, terminal socket) stays dead along any
execution obeying the host contract, and every poll along the way answers
`Ready none`. -/
theorem dead_results : ∀ (es : List Event) (s : WsIo),
    s.queue = [] → s.readyState.isTerminal = true → ValidExec s es = true →
    ∀ r ∈ results s es, r = Poll.Ready none
  | [], _, _, _, _ => by simp [results]
  | Event.setState st :: es, s, hq, hst, hv => by
    rw [ValidExec, Bool.and_eq_true] at hv
    have hterm : st.isTerminal = true := by
      rcases hv with ⟨h1, _⟩
      rw [hst] at h1
      simpa using h1
    intro r hr
    rw [results] at hr
    exact dead_results es { s with readyState := st } hq hterm hv.2 r hr
  | Event.mesg m :: es, s, _, hst, hv => by
    rw [ValidExec, Bool.and_eq_true] at hv
    rw [hst] at hv
    simp at hv
  | Event.poll w :: es, s, hq, hst, hv => by
    rw [ValidExec] at hv
    have hp := poll_next_dead s w hq hst
    intro r hr
    rw [results, hp] at hr
    rcases List.mem_cons.mp hr with h | h
    · exact h
    · exact dead_results es { s with waker := some w } hq hst (by rw [hp] at hv; exact hv) r h

/-- C2: sticky termination. Along any execution obeying the host contract
(the socket never leaves `Closing`/`Closed` once there, and no message
callback fires after that — spec section 4.2: "no more data will ever
arrive"), once some poll answers `Ready none`, every later poll also
answers `Ready none`. -/
theorem sticky_termination : ∀ (es : List Event) (s : WsIo),
    ValidExec s es = true →
    ∀ rs1 rs2, results s es = rs1 ++ Poll.Ready none :: rs2 →
    ∀ r ∈ rs2, r = Poll.Ready none
  | [], s, _, rs1, rs2, hsplit => by
    rw [results] at hsplit
    exact absurd hsplit (by simp)
  | Event.setState st :: es, s, hv, rs1, rs2, hsplit => by
    rw [ValidExec, Bool.and_eq_true] at hv
    rw [results] at hsplit
    exact sticky_termination es { s with readyState := st } hv.2 rs1 rs2 hsplit
  | Event.mesg m :: es, s, hv, rs1, rs2, hsplit => by
    rw [ValidExec, Bool.and_eq_true] at hv
    rw [results] at hsplit
    exact sticky_termination es (s.on_mesg m).1 hv.2 rs1 rs2 hsplit
  | Event.poll w :: es, s, hv, rs1, rs2, hsplit => by
    rw [ValidExec] at hv
    rw [results] at hsplit
    cases rs1 with
    | nil =>
      rw [List.nil_append] at hsplit
      have hhead : (s.poll_next w).1 = Poll.Ready none := (List.cons.injEq _ _ _ _ ▸ hsplit).1
      have htail : results (s.poll_next w).2 es = rs2 := (List.cons.injEq _ _ _ _ ▸ hsplit).2
      have hd := poll_next_ready_none s w hhead
      have hterm : (s.poll_next w).2.readyState.isTerminal = true := by
        rw [hd.2.2.2]
        exact hd.2.1
      intro r hr
      exact dead_results es (s.poll_next w).2 hd.2.2.1 hterm hv r (htail ▸ hr)
    | cons r0 rs1 =>
      rw [List.cons_append] at hsplit
      have htail : results (s.poll_next w).2 es = rs1 ++ Poll.Ready none :: rs2 :=
        (List.cons.injEq _ _ _ _ ▸ hsplit).2
      exact sticky_termination es (s.poll_next w).2 hv rs1 rs2 htail

/-- Witness for C2: a closed socket polled twice — the first poll answers
`Ready none` and the theorem forces the second to as well. -/
theorem sticky_termination_witness :
    ValidExec ⟨WsState.Closed, [], none⟩ [Event.poll 0, Event.poll 1] = true ∧
    results ⟨WsState.Closed, [], none⟩ [Event.poll 0, Event.poll 1]
      = [] ++ Poll.Ready none :: [Poll.Ready none] ∧
    Poll.Ready (none : Option WsMessage) = Poll.Ready none :=
  ⟨by decide, by decide,
    sticky_termination [Event.poll 0, Event.poll 1] ⟨WsState.Closed, [], none⟩
      (by decide) [] [Poll.Ready none] (by decide) (Poll.Ready none)
      (List.mem_singleton.mpr rfl)⟩

/-- C6: `poll_close` issues a raw close exactly when the read state is
`Connecting` or `Open` (never while `Closing`/`Closed`); when the state is
`Closed` it resolves `Ready (ok)` at once without spawning; otherwise it
spawns the close-wait task bound to the caller's waker and stays
`Pending`; it never answers an error. -/
theorem poll_close_spec (s : WsIo) (w : Waker) :
    ((s.poll_close w).closeIssued = true ↔
      (s.readyState = WsState.Connecting ∨ s.readyState = WsState.Open)) ∧
    (s.readyState = WsState.Closed →
      (s.poll_close w).result = Poll.Ready (Except.ok ()) ∧
      (s.poll_close w).spawned = none) ∧
    (s.readyState ≠ WsState.Closed →
      (s.poll_close w).result = Poll.Pending ∧
      (s.poll_close w).spawned = some w) ∧
    (∀ e, (s.poll_close w).result ≠ Poll.Ready (Except.error e)) := by
  refine ⟨?_, ?_, ?_, ?_⟩ <;> cases hst : s.readyState <;>
    simp [WsIo.poll_close, hst]

/-- Witness for C6: concrete states — a close is issued while `Open`, a
closed socket resolves at once, a closing one spawns the waiter and stays
pending. -/
theorem poll_close_spec_witness :
    (WsIo.poll_close ⟨WsState.Open, [], none⟩ 3).closeIssued = true ∧
    (WsIo.poll_close ⟨WsState.Closed, [], none⟩ 3).result = Poll.Ready (Except.ok ()) ∧
    (WsIo.poll_close ⟨WsState.Closing, [], none⟩ 3).result = Poll.Pending ∧
    (WsIo.poll_close ⟨WsState.Closing, [], none⟩ 3).spawned = some 3 :=
  ⟨(poll_close_spec ⟨WsState.Open, [], none⟩ 3).1.mpr (Or.inr rfl),
    ((poll_close_spec ⟨WsState.Closed, [], none⟩ 3).2.1 rfl).1,
    ((poll_close_spec ⟨WsState.Closing, [], none⟩ 3).2.2.1 (by decide)).1,
    ((poll_close_spec ⟨WsState.Closing, [], none⟩ 3).2.2.1 (by decide)).2⟩

/-- C7 counterexample: when the socket's raw close fails, `Drop::drop` does
not return normally — the `expect` escalates the failure as a panic,
refuting "a best-effort action whose failure is not escalated to the
caller". -/
theorem drop_close_failure_escalates :
    (WsIo.drop (Except.error "close failed")).2 = DropOutcome.panicked ∧
    (WsIo.drop (Except.error "close failed")).2 ≠ DropOutcome.ok := by
  exact ⟨rfl, by simp [WsIo.drop]⟩

/-- C7 amended: on adapter destruction the socket's close is invoked
unconditionally, exactly once; a successful close returns normally, and a
failing close panics (the failure is escalated as a panic by `expect`, not
swallowed). -/
theorem drop_spec (r : Except String Unit) :
    (WsIo.drop r).1 = 1 ∧
    (∀ u, r = Except.ok u → (WsIo.drop r).2 = DropOutcome.ok) ∧
    (∀ e, r = Except.error e → (WsIo.drop r).2 = DropOutcome.panicked) := by
  cases r <;> simp [WsIo.drop]

/-- Witness for C7 (amended): a drop whose raw close succeeds invokes it
once and returns normally. -/
theorem drop_spec_witness :
    (WsIo.drop (Except.ok ())).1 = 1 ∧
    (WsIo.drop (Except.ok ())).2 = DropOutcome.ok :=
  ⟨(drop_spec (Except.ok ())).1, (drop_spec (Except.ok ())).2.1 () rfl⟩

/-- C9: over the defined domain — the four lifecycle codes the socket can
report — the `WsState` conversion succeeds and `ready_state` returns it
without panicking; the queue primitives are total: `push_back` appends its
element to every queue and `pop_front` answers on every queue, the empty
one included. -/
theorem steady_state_no_panic :
    (∀ raw, raw < 4 → ∃ st, WsState.try_from raw = some st ∧
      WsIo.ready_state raw = some st) ∧
    (∀ (q : List WsMessage) (m : WsMessage), push_back q m = q ++ [m]) ∧
    (∀ q : List WsMessage, (pop_front q).1.isSome = !q.isEmpty) := by
  refine ⟨?_, ?_, ?_⟩
  · intro raw h
    interval_cases raw <;> exact ⟨_, rfl, rfl⟩
  · intro q m
    rfl
  · intro q
    cases q <;> rfl

/-- Witness for C9: the code 1 (an open socket) is in the defined domain
and converts without panicking. -/
theorem steady_state_no_panic_witness :
    (1 : Nat) < 4 ∧ (WsIo.ready_state 1).isSome = true := by
  refine ⟨by decide, ?_⟩
  obtain ⟨st, _, h2⟩ := steady_state_no_panic.1 1 (by decide)
  rw [h2]
  rfl

end WsStreamWasm
